import Mathlib

/-!
Verification development for the `cms-blog-ai` scheduling core.

Shallow embedding of the scheduler, generation pipeline and SEO helpers:

* `src/models/schedule.py` — interval→cron mapping, `get_cron_expression`;
* `src/tasks/post_tasks.py` — `generate_post_for_agent` (schedule stats and
  celery retry policy), `process_agent_schedules` (cron sweep),
  `publish_scheduled_posts` (publish timer);
* `src/ai/post_generator.py` — `generate_post` orchestration and
  `_extract_title`;
* `src/services/seo_service.py` — `generate_slug`.

Strings are modelled as `List Char`; times as `Int` (seconds); the external
collaborators (croniter, the Claude completion client, `json.loads`) are
modelled by their returned values, passed in as parameters.
-/

set_option autoImplicit false

namespace PyStr

/-- The ASCII whitespace characters stripped by Python's `str.strip()`
(`' '`, `\t`, `\n`, `\r`, vertical tab, form feed).  Python also strips
non-ASCII Unicode whitespace; the model covers the ASCII range used by the
code paths under verification. -/
def pyWhitespace (c : Char) : Bool :=
  c = ' ' || c = '\t' || c = '\n' || c = '\r' || c = '\x0b' || c = '\x0c'

/-- Remove trailing characters satisfying `p` (the right half of Python's
`str.strip`).  Structural recursion from the left: a character is kept iff
something non-`p` survives to its right. -/
def rstrip (p : Char → Bool) : List Char → List Char
  | [] => []
  | c :: cs =>
    match rstrip p cs with
    | [] => if p c then [] else [c]
    | d :: ds => c :: d :: ds

/-- Python `str.strip()`: drop leading and trailing whitespace. -/
def pyStrip (l : List Char) : List Char :=
  rstrip pyWhitespace (l.dropWhile pyWhitespace)

/-- Python `str.strip(chars)` for a single character, as used by
`slug.strip('-')`. -/
def stripChar (ch : Char) (l : List Char) : List Char :=
  rstrip (· = ch) (l.dropWhile (· = ch))

end PyStr

namespace ScheduleModel

/-- `ScheduleInterval` from `src/models/schedule.py`. -/
inductive ScheduleInterval where
  | daily
  | every_3_days
  | weekly
  | biweekly
  deriving DecidableEq, Repr

/-- `INTERVAL_CRON_MAP` from `src/models/schedule.py`: interval → cron
template, with the `{hour}` placeholder still unexpanded. -/
def INTERVAL_CRON_MAP : ScheduleInterval → List Char
  | .daily => "0 {hour} * * *".data
  | .every_3_days => "0 {hour} */3 * *".data
  | .weekly => "0 {hour} * * 1".data
  | .biweekly => "0 {hour} 1,15 * *".data

/-- Python `template.format(hour=h)`: replace each `{hour}` placeholder by
the decimal rendering of `h`. -/
def formatHour : List Char → Nat → List Char
  | '{' :: 'h' :: 'o' :: 'u' :: 'r' :: '}' :: rest, h =>
      (Nat.repr h).data ++ formatHour rest h
  | c :: rest, h => c :: formatHour rest h
  | [], _ => []

/-- `ScheduleConfig.get_cron_expression` from `src/models/schedule.py`,
restricted to the four valid interval values (an unknown interval string
raises inside `ScheduleInterval(...)` before the map lookup). -/
def get_cron_expression (interval : ScheduleInterval) (publish_hour : Nat) :
    List Char :=
  formatHour (INTERVAL_CRON_MAP interval) publish_hour

end ScheduleModel

namespace SweepModel

/-- The fields of `Agent` read by `process_agent_schedules`
(`src/tasks/post_tasks.py`): the sweep queries active agents whose
`schedule_cron` is non-null. -/
structure AgentRec where
  is_active : Bool
  schedule_cron : Option (List Char)
  deriving DecidableEq, Repr

/-- Outcome of the croniter library (an external dependency): given a cron
expression and `now`, either the most recent scheduled fire time at or
before `now`, or an error for a malformed expression.  Passed in as a
parameter. -/
abbrev CronPrev := List Char → Int → Except (List Char) Int

/-- The per-agent due decision inside `process_agent_schedules`: ask
croniter for the previous fire time and compare
`(now - prev_run).total_seconds() < interval_seconds`. -/
def agentDue (cronPrev : CronPrev) (cron : List Char) (now : Int)
    (intervalSeconds : Int) : Except (List Char) Bool :=
  match cronPrev cron now with
  | .error e => .error e
  | .ok prev => .ok (decide (now - prev < intervalSeconds))

/-- The number of generation jobs triggered by the sweep loop: a croniter
error for one agent is caught and that agent skipped (`continue`); a due
agent triggers exactly one job. -/
def triggeredCount (cronPrev : CronPrev) (now : Int) (intervalSeconds : Int) :
    List AgentRec → Nat
  | [] => 0
  | a :: rest =>
    match a.schedule_cron with
    | none => triggeredCount cronPrev now intervalSeconds rest
    | some cron =>
      match agentDue cronPrev cron now intervalSeconds with
      | .ok true => triggeredCount cronPrev now intervalSeconds rest + 1
      | .ok false => triggeredCount cronPrev now intervalSeconds rest
      | .error _ => triggeredCount cronPrev now intervalSeconds rest

/-- `process_agent_schedules` (`src/tasks/post_tasks.py`): filter to active
agents with a cron expression, evaluate each, and return
`(agents_checked, posts_triggered)`. -/
def process_agent_schedules (cronPrev : CronPrev) (now : Int)
    (intervalSeconds : Int) (allAgents : List AgentRec) : Nat × Nat :=
  let agents := allAgents.filter fun a => a.is_active && a.schedule_cron.isSome
  (agents.length, triggeredCount cronPrev now intervalSeconds agents)

end SweepModel

namespace StatsModel

/-- The run-statistics fields of `ScheduleConfig`
(`src/models/schedule.py`) mutated by `generate_post_for_agent`. -/
structure ScheduleStats where
  total_posts_generated : Nat
  successful_posts : Nat
  failed_posts : Nat
  last_run_at : Option Int
  deriving DecidableEq, Repr

/-- The success path of `generate_post_for_agent`
(`src/tasks/post_tasks.py` lines 153–157): when an active schedule exists,
increment `total_posts_generated` and `successful_posts` and stamp
`last_run_at = datetime.utcnow()`. -/
def recordSuccess (s : ScheduleStats) (now : Int) : ScheduleStats :=
  { s with
    total_posts_generated := s.total_posts_generated + 1
    successful_posts := s.successful_posts + 1
    last_run_at := some now }

/-- The exception path of `generate_post_for_agent`
(`src/tasks/post_tasks.py` lines 169–188): after the rollback, increment
`failed_posts` and commit, then re-raise (which hands the exception to the
celery `autoretry_for=(Exception,)` policy).  This runs on *every* failing
attempt, not only on the final one. -/
def recordFailure (s : ScheduleStats) : ScheduleStats :=
  { s with failed_posts := s.failed_posts + 1 }

/-- The celery retry driver around `generate_post_for_agent`
(`autoretry_for=(Exception,)`, `max_retries=3`): attempts run in order
until the first success; each failing attempt runs the exception path
(`recordFailure`), a successful attempt runs the success path.  The
outcome list has at most 4 entries (1 initial attempt + 3 retries). -/
def runAttempts (now : Int) : ScheduleStats → List Bool → ScheduleStats
  | s, [] => s
  | s, true :: _ => recordSuccess s now
  | s, false :: rest => runAttempts now (recordFailure s) rest

end StatsModel

namespace PublishModel

/-- The `Post` entity (`src/models/post.py`), with the columns created by
the pipeline and read or written by `publish_scheduled_posts`.  `status`
is one of the strings draft / scheduled / published / failed.
`updated_at` carries `onupdate=datetime.utcnow`
(`src/models/post.py` lines 80–84): SQLAlchemy re-evaluates it whenever a
flush emits an UPDATE for the row, so the publish tick's commit rewrites
it on every selected post. -/
structure PostRec where
  id : Nat
  agent_id : Nat
  title : List Char
  slug : Option (List Char)
  content : List Char
  meta_title : Option (List Char)
  meta_description : Option (List Char)
  keywords : List (List Char)
  word_count : Option Nat
  tokens_used : Nat
  status : List Char
  scheduled_at : Option Int
  published_at : Option Int
  updated_at : Int
  deriving DecidableEq, Repr

/-- The selection predicate of `publish_scheduled_posts`
(`src/tasks/post_tasks.py` lines 294–299):
`Post.status == "scheduled" AND Post.scheduled_at <= now`.  A null
`scheduled_at` never satisfies the SQL comparison. -/
def dueForPublish (now : Int) (p : PostRec) : Bool :=
  p.status = "scheduled".data &&
    match p.scheduled_at with
    | some t => decide (t ≤ now)
    | none => false

/-- The per-post update of `publish_scheduled_posts`
(`src/tasks/post_tasks.py` lines 304–308 and the commit at line 314): a
selected post gets `status = "published"` and `published_at = now` (the
single `now` captured at the start of the tick), and the ORM's
`onupdate=datetime.utcnow` column default stamps `updated_at` with a
fresh timestamp when the commit flushes the changed row — `flushTime`,
taken at commit time, after the loop, so in general distinct from `now`.
An unselected post produces no UPDATE and is untouched, `updated_at`
included. -/
def publishPost (now flushTime : Int) (p : PostRec) : PostRec :=
  if dueForPublish now p then
    { p with status := "published".data, published_at := some now,
             updated_at := flushTime }
  else
    p

/-- One tick of `publish_scheduled_posts` over the whole store. -/
def publish_scheduled_posts (now flushTime : Int) (posts : List PostRec) :
    List PostRec :=
  posts.map (publishPost now flushTime)

end PublishModel

namespace PipelineModel

open PyStr

/-- Case-insensitive character comparison (`re.IGNORECASE`). -/
def lcEq (a b : Char) : Bool := a.toLower = b.toLower

/-- Match `pat` case-insensitively at the head of the input; return the
rest of the input on success. -/
def matchPrefixCI : List Char → List Char → Option (List Char)
  | [], l => some l
  | _ :: _, [] => none
  | p :: ps, c :: cs => if lcEq p c then matchPrefixCI ps cs else none

/-- Try the regex `<TAG[^>]*>([^<]+)</TAG>` (case-insensitive) anchored at
the current position, returning the captured group.  The greedy `[^>]*`
necessarily stops at the first `>`, and the capture `([^<]+)` necessarily
stops at the first `<` (where `</TAG>` must then match), so the regex
engine's behaviour at one position is deterministic. -/
def tryTagAt (tag : List Char) (l : List Char) : Option (List Char) :=
  match matchPrefixCI ('<' :: tag) l with
  | none => none
  | some afterOpen =>
    match afterOpen.dropWhile (· ≠ '>') with
    | '>' :: body =>
      let captured := body.takeWhile (· ≠ '<')
      if captured.isEmpty then none
      else
        match matchPrefixCI ('<' :: '/' :: tag ++ ['>']) (body.dropWhile (· ≠ '<')) with
        | some _ => some captured
        | none => none
    | _ => none

/-- `re.search` for the tag pattern: try each start position from the
left, returning the first (leftmost) capture. -/
def searchTag (tag : List Char) : List Char → Option (List Char)
  | [] => none
  | c :: cs =>
    match tryTagAt tag (c :: cs) with
    | some r => some r
    | none => searchTag tag cs

/-- Python `str.split("\n")` (note `"".split("\n") == [""]`). -/
def splitNL : List Char → List (List Char)
  | [] => [[]]
  | c :: rest =>
    if c = '\n' then [] :: splitNL rest
    else
      match splitNL rest with
      | [] => [[c]]
      | line :: more => (c :: line) :: more

/-- The Markdown branch of `_extract_title`
(`src/ai/post_generator.py` lines 199–204): strip the line; `# ` yields
the rest stripped, else `## ` yields the rest stripped. -/
def mdTitle (line : List Char) : Option (List Char) :=
  let s := pyStrip line
  if s.take 2 = ['#', ' '] then some (pyStrip (s.drop 2))
  else if s.take 3 = ['#', '#', ' '] then some (pyStrip (s.drop 3))
  else none

/-- State machine for `re.sub(r'<[^>]+>', '', line)`: `none` means we are
outside any candidate tag; `some buf` holds the (reversed) characters read
since an opening `<`.  A `>` with a non-empty buffer completes a match
(the tag is dropped); a `>` right after `<` is not a match (`+` requires
one character); an unterminated `<...` is emitted verbatim. -/
def stripTagsAux : Option (List Char) → List Char → List Char
  | none, [] => []
  | none, c :: rest =>
    if c = '<' then stripTagsAux (some []) rest
    else c :: stripTagsAux none rest
  | some buf, [] => '<' :: buf.reverse
  | some buf, c :: rest =>
    if c = '>' then
      if buf.isEmpty then '<' :: '>' :: stripTagsAux none rest
      else stripTagsAux none rest
    else stripTagsAux (some (c :: buf)) rest

/-- `re.sub(r'<[^>]+>', '', l)`: remove every HTML tag. -/
def stripTags (l : List Char) : List Char := stripTagsAux none l

/-- The final fallback of `_extract_title`
(`src/ai/post_generator.py` lines 207–212): strip the line, remove HTML
tags, strip again; if longer than 10 characters return the first 100. -/
def textLineTitle (line : List Char) : Option (List Char) :=
  let clean := pyStrip (stripTags (pyStrip line))
  if 10 < clean.length then some (clean.take 100) else none

/-- `PostGenerator._extract_title` (`src/ai/post_generator.py`
lines 178–214): first `<h1>` capture stripped, else first `<h2>` capture
stripped, else first Markdown heading line, else first text line longer
than 10 characters truncated to 100, else `"Untitled Post"`. -/
def extract_title (content : List Char) : List Char :=
  match searchTag ['h', '1'] content with
  | some t => pyStrip t
  | none =>
    match searchTag ['h', '2'] content with
    | some t => pyStrip t
    | none =>
      let lines := splitNL (pyStrip content)
      match lines.findSome? mdTitle with
      | some t => t
      | none =>
        match lines.findSome? textLineTitle with
        | some t => t
        | none => "Untitled Post".data

/-- JSON values, as returned by Python's `json.loads`
(an external standard-library dependency, modelled by its outcome). -/
inductive Json where
  | null
  | bool (b : Bool)
  | num (n : Int)
  | str (s : List Char)
  | arr (items : List Json)
  | obj (fields : List (List Char × Json))

/-- `json.loads` modelled by its outcome: a parsed value, or an error for
input that is not valid JSON (`json.JSONDecodeError`). -/
abbrev JsonLoads := List Char → Except (List Char) Json

/-- The keyword-parsing step of `generate_post`
(`src/ai/post_generator.py` lines 143–150): a `JSONDecodeError` is caught
and yields `[]`; a parsed value that is not a list is replaced by `[]`;
a parsed list is kept as is. -/
def parseKeywordsResponse (loadResult : Except (List Char) Json) :
    List Json :=
  match loadResult with
  | .error _ => []
  | .ok (.arr items) => items
  | .ok _ => []

/-- `(text, tokens_used)` as returned by `claude.generate_text`. -/
abbrev Reply := List Char × Nat

/-- Outcome of one Completion Service call: reply, or a raised exception
(network / quota / API failure), modelled by its outcome. -/
abbrev CallResult := Except (List Char) Reply

/-- Counts whitespace-separated words, Python `len(content.split())`. -/
def wordCountAux : Bool → List Char → Nat
  | _, [] => 0
  | inWord, c :: cs =>
    if pyWhitespace c then wordCountAux false cs
    else (if inWord then 0 else 1) + wordCountAux true cs

/-- Python `len(l.split())`. -/
def pyWordCount (l : List Char) : Nat := wordCountAux false l

/-- The result dictionary of `PostGenerator.generate_post`. -/
structure GenResult where
  title : List Char
  content : List Char
  meta_title : List Char
  meta_description : List Char
  keywords : List Json
  tokens_used : Nat
  word_count : Nat

/-- `PostGenerator.generate_post` (`src/ai/post_generator.py`
lines 84–172), as a function of the outcomes of the four Completion
Service calls and of `json.loads`.  An exception from any call
propagates; empty content raises `ValueError`; the meta title and meta
description are stripped and truncated to 70 / 160 characters; a keyword
parse failure is recovered locally with an empty list. -/
def generate_post (jsonLoads : JsonLoads)
    (contentReply metaTitleReply metaDescReply keywordsReply : CallResult) :
    Except (List Char) GenResult :=
  match contentReply with
  | .error e => .error e
  | .ok (content, tokensContent) =>
    if content.isEmpty then .error "Generated content is empty".data
    else
      match metaTitleReply with
      | .error e => .error e
      | .ok (mt, tokensMetaTitle) =>
        match metaDescReply with
        | .error e => .error e
        | .ok (md, tokensMetaDesc) =>
          match keywordsReply with
          | .error e => .error e
          | .ok (kw, tokensKeywords) =>
            .ok {
              title := extract_title content
              content := content
              meta_title := (pyStrip mt).take 70
              meta_description := (pyStrip md).take 160
              keywords := parseKeywordsResponse (jsonLoads (pyStrip kw))
              tokens_used :=
                tokensContent + tokensMetaTitle + tokensMetaDesc + tokensKeywords
              word_count := pyWordCount content }

end PipelineModel

namespace SlugModel

open PyStr

/-- The character class `[a-z0-9]` of the slug regex. -/
def slugChar (c : Char) : Bool :=
  ('a' ≤ c && c ≤ 'z') || ('0' ≤ c && c ≤ '9')

/-- `normalize('NFKD', title).encode('ascii', 'ignore').decode('ascii')`
(`src/services/seo_service.py` line 138): non-ASCII characters are
decomposed and any that remain non-ASCII are dropped.  The model keeps
ASCII characters unchanged and drops non-ASCII ones (the NFKD
decomposition of non-ASCII letters into ASCII base letters is not
modelled; it only affects which characters survive this step, and every
later step constrains the character set again). -/
def asciiFilter (l : List Char) : List Char :=
  l.filter fun c => c.toNat < 128

/-- Python `str.lower()` on the ASCII-only intermediate string. -/
def lowerAll (l : List Char) : List Char := l.map Char.toLower

/-- `re.sub(r'[^a-z0-9]+', '-', slug)`: each maximal run of characters
outside `[a-z0-9]` becomes a single hyphen.  Runs are collapsed from the
right: a non-slug character merges into an immediately following
hyphen. -/
def hyphenate : List Char → List Char
  | [] => []
  | c :: cs =>
    if slugChar c then c :: hyphenate cs
    else if (hyphenate cs).head? = some '-' then hyphenate cs
    else '-' :: hyphenate cs

/-- No two adjacent hyphens: the shape invariant the single-`-`
substitution guarantees. -/
def NoDD (a b : Char) : Prop := ¬(a = '-' ∧ b = '-')

/-- The length cap of `generate_slug`
(`src/services/seo_service.py` lines 150–151): if longer than 100, take
the first 100 characters and drop the final `-`-separated fragment
(`slug[:100].rsplit('-', 1)[0]`; when the prefix holds no hyphen,
`rsplit` returns it whole). -/
def truncateSlug (l : List Char) : List Char :=
  if 100 < l.length then
    if (l.take 100).contains '-' then
      (((l.take 100).reverse.dropWhile (· ≠ '-')).drop 1).reverse
    else l.take 100
  else l

/-- `SEOService.generate_slug` (`src/services/seo_service.py`
lines 127–153). -/
def generate_slug (title : List Char) : List Char :=
  truncateSlug (stripChar '-' (hyphenate (lowerAll (asciiFilter title))))

end SlugModel

namespace PyStr

theorem rstrip_isPrefix (p : Char → Bool) (l : List Char) : rstrip p l <+: l := by
  induction l with
  | nil => exact List.prefix_refl _
  | cons c cs ih =>
    simp only [rstrip]
    cases h : rstrip p cs with
    | nil =>
      by_cases hp : p c = true
      · simp [hp]
      · simp [hp]
    | cons d ds =>
      rw [h] at ih
      exact List.prefix_cons_inj c |>.mpr ih

theorem rstrip_getLast (p : Char → Bool) (l : List Char) (d : Char)
    (h : (rstrip p l).getLast? = some d) : p d = false := by
  induction l with
  | nil => simp [rstrip] at h
  | cons c cs ih =>
    simp only [rstrip] at h
    cases hr : rstrip p cs with
    | nil =>
      rw [hr] at h
      by_cases hp : p c = true
      · simp [hp] at h
      · simp [hp] at h
        subst h
        simpa using hp
    | cons e es =>
      rw [hr] at h
      rw [List.getLast?_cons_cons] at h
      apply ih
      rw [hr]
      exact h

theorem head_dropWhile (p : Char → Bool) (l : List Char) (d : Char)
    (h : (l.dropWhile p).head? = some d) : p d = false := by
  induction l with
  | nil => simp [List.dropWhile] at h
  | cons c cs ih =>
    rw [List.dropWhile_cons] at h
    by_cases hp : p c = true
    · simp [hp] at h
      exact ih h
    · simp [hp] at h
      subst h
      simpa using hp

theorem head_rstrip (p : Char → Bool) (l : List Char) (d : Char)
    (h : (rstrip p l).head? = some d) : l.head? = some d := by
  rcases rstrip_isPrefix p l with ⟨t, ht⟩
  cases hr : rstrip p l with
  | nil => rw [hr] at h; simp at h
  | cons e es =>
    rw [hr] at h
    simp at h
    rw [hr] at ht
    subst ht
    simp [h]

theorem head_pyStrip (l : List Char) (d : Char)
    (h : (pyStrip l).head? = some d) : pyWhitespace d = false :=
  head_dropWhile pyWhitespace l d (head_rstrip pyWhitespace _ d h)

theorem stripChar_isInfix (ch : Char) (l : List Char) : stripChar ch l <:+: l :=
  (List.IsPrefix.isInfix (rstrip_isPrefix (· = ch) (l.dropWhile (· = ch)))).trans
    ((List.dropWhile_suffix (· = ch)).isInfix)

theorem head_stripChar (ch : Char) (l : List Char) :
    (stripChar ch l).head? ≠ some ch := by
  intro h
  have h2 := head_rstrip (· = ch) (l.dropWhile (· = ch)) ch h
  have h3 := head_dropWhile (· = ch) l ch h2
  simp at h3

theorem getLast_stripChar (ch : Char) (l : List Char) :
    (stripChar ch l).getLast? ≠ some ch := by
  intro h
  have h2 := rstrip_getLast (· = ch) (l.dropWhile (· = ch)) ch h
  simp at h2

end PyStr

namespace SlugModel

open PyStr

theorem slugChar_ne_dash (c : Char) (h : slugChar c = true) : c ≠ '-' := by
  intro hc
  subst hc
  exact absurd h (by decide)

theorem hyphenate_mem (l : List Char) :
    ∀ c ∈ hyphenate l, slugChar c = true ∨ c = '-' := by
  induction l with
  | nil => intro c hc; simp [hyphenate] at hc
  | cons a cs ih =>
    intro c hc
    rw [hyphenate] at hc
    by_cases ha : slugChar a = true
    · rw [if_pos ha] at hc
      rcases List.mem_cons.mp hc with rfl | hc
      · exact Or.inl ha
      · exact ih c hc
    · rw [if_neg ha] at hc
      by_cases hh : (hyphenate cs).head? = some '-'
      · rw [if_pos hh] at hc
        exact ih c hc
      · rw [if_neg hh] at hc
        rcases List.mem_cons.mp hc with rfl | hc
        · exact Or.inr rfl
        · exact ih c hc

theorem hyphenate_chain (l : List Char) : List.Chain' NoDD (hyphenate l) := by
  induction l with
  | nil => simp [hyphenate]
  | cons a cs ih =>
    rw [hyphenate]
    by_cases ha : slugChar a = true
    · rw [if_pos ha, List.chain'_cons']
      refine ⟨?_, ih⟩
      intro y _ hdd
      exact slugChar_ne_dash a ha hdd.1
    · rw [if_neg ha]
      by_cases hh : (hyphenate cs).head? = some '-'
      · rw [if_pos hh]
        exact ih
      · rw [if_neg hh, List.chain'_cons']
        refine ⟨?_, ih⟩
        intro y hy hdd
        apply hh
        rw [Option.mem_def] at hy
        rw [hy, hdd.2]

end SlugModel

section Claims

open PyStr ScheduleModel SweepModel StatsModel PublishModel PipelineModel SlugModel

/-- C3: for every interval in {daily, every-3-days, weekly, biweekly} and
hour 0–23, `get_cron_expression` equals the fixed template with the hour
substituted exactly: daily `0 H * * *`, every-3-days `0 H */3 * *`,
weekly `0 H * * 1`, biweekly `0 H 1,15 * *`. -/
theorem C3_cron_template (i : ScheduleInterval) (h : Nat) (hh : h ≤ 23) :
    get_cron_expression i h =
      match i with
      | .daily => '0' :: ' ' :: ((Nat.repr h).data ++ " * * *".data)
      | .every_3_days => '0' :: ' ' :: ((Nat.repr h).data ++ " */3 * *".data)
      | .weekly => '0' :: ' ' :: ((Nat.repr h).data ++ " * * 1".data)
      | .biweekly => '0' :: ' ' :: ((Nat.repr h).data ++ " 1,15 * *".data) := by
  cases i <;> rfl

/-- Witness for C3 at interval daily, hour 10. -/
theorem C3_cron_template_witness :
    get_cron_expression ScheduleInterval.daily 10 = "0 10 * * *".data :=
  (C3_cron_template ScheduleInterval.daily 10 (by decide)).trans (by rfl)

/-- C2: the sweep's per-agent due decision asks the cron evaluator for the
most recent fire time at or before `now` and judges the agent due iff
`now - prev < pollWindowSeconds`; with a 300-second window a 250-second
gap is due and a 400-second gap is not. -/
theorem C2_isDue (cronPrev : CronPrev) (cron : List Char) (now prev w : Int)
    (hprev : cronPrev cron now = .ok prev) :
    (agentDue cronPrev cron now w = .ok true ↔ now - prev < w)
    ∧ agentDue (fun _ n => .ok (n - 250)) cron now 300 = .ok true
    ∧ agentDue (fun _ n => .ok (n - 400)) cron now 300 = .ok false := by
  refine ⟨?_, ?_, ?_⟩
  · simp only [agentDue, hprev]
    simp
  · simp only [agentDue]
    simp only [Except.ok.injEq, decide_eq_true_eq]
    omega
  · simp only [agentDue]
    simp only [Except.ok.injEq, decide_eq_false_iff_not]
    omega

/-- Witness for C2 at `now = 1000`, previous fire 750, window 300. -/
theorem C2_isDue_witness :
    agentDue (fun _ n => .ok (n - 250)) [] 1000 300 = .ok true :=
  (C2_isDue (fun _ n => .ok (n - 250)) [] 1000 750 300 (by norm_num)).1.mpr
    (by norm_num)

theorem triggeredCount_append (cronPrev : CronPrev) (now w : Int)
    (l1 l2 : List AgentRec) :
    triggeredCount cronPrev now w (l1 ++ l2) =
      triggeredCount cronPrev now w l1 + triggeredCount cronPrev now w l2 := by
  induction l1 with
  | nil => simp [triggeredCount]
  | cons a rest ih =>
    cases hc : a.schedule_cron with
    | none => simp [triggeredCount, hc, ih]
    | some cron =>
      cases hd : agentDue cronPrev cron now w with
      | error e => simp [triggeredCount, hc, hd, ih]
      | ok b => cases b <;> simp [triggeredCount, hc, hd, ih] <;> omega

/-- C8: an error while evaluating one agent's cron is caught and the agent
skipped; every other agent is still evaluated, the erroring agent still
counts as checked, and the number of jobs triggered is exactly what it
would be without the erroring agent. -/
theorem C8_sweep_isolation (cronPrev : CronPrev) (now w : Int)
    (pre post : List AgentRec) (bad : AgentRec) (cron e : List Char)
    (hactive : bad.is_active = true) (hcron : bad.schedule_cron = some cron)
    (herr : cronPrev cron now = .error e) :
    process_agent_schedules cronPrev now w (pre ++ bad :: post)
      = ((process_agent_schedules cronPrev now w (pre ++ post)).1 + 1,
         (process_agent_schedules cronPrev now w (pre ++ post)).2) := by
  have hkeep : (bad.is_active && bad.schedule_cron.isSome) = true := by
    rw [hactive, hcron]; rfl
  have hdue : agentDue cronPrev cron now w = .error e := by
    rw [agentDue, herr]
  simp [process_agent_schedules, List.filter_append, List.filter_cons, hactive, hcron,
    triggeredCount_append, triggeredCount, hdue, Prod.ext_iff]
  omega

/-- Witness for C8: one bad agent between two good ones. -/
theorem C8_sweep_isolation_witness :
    process_agent_schedules
        (fun c n => if c.isEmpty then .error ['x'] else .ok (n - 250)) 1000 300
        [⟨true, some ['a']⟩, ⟨true, some []⟩, ⟨true, some ['b']⟩]
      = ((process_agent_schedules
            (fun c n => if c.isEmpty then .error ['x'] else .ok (n - 250)) 1000 300
            [⟨true, some ['a']⟩, ⟨true, some ['b']⟩]).1 + 1,
         (process_agent_schedules
            (fun c n => if c.isEmpty then .error ['x'] else .ok (n - 250)) 1000 300
            [⟨true, some ['a']⟩, ⟨true, some ['b']⟩]).2) :=
  C8_sweep_isolation (fun c n => if c.isEmpty then .error ['x'] else .ok (n - 250))
    1000 300 [⟨true, some ['a']⟩] [⟨true, some ['b']⟩] ⟨true, some []⟩ [] ['x']
    rfl rfl rfl

/-- C1 counterexample: a run whose first attempt fails and is then retried
(the second attempt succeeds) already has `failed_posts = 1` — the code
increments the failed counter on every failing attempt, not only after
retries are exhausted as the claim states. -/
theorem C1_counterexample :
    (runAttempts 5 ⟨0, 0, 0, none⟩ [false, true]).failed_posts = 1 ∧
    (runAttempts 5 ⟨0, 0, 0, none⟩ [false, true]).failed_posts ≠ 0 := by
  decide

theorem runAttempts_fail_then_success (now : Int) :
    ∀ (k : Nat) (s : ScheduleStats),
      runAttempts now s (List.replicate k false ++ [true]) =
        ⟨s.total_posts_generated + 1, s.successful_posts + 1,
         s.failed_posts + k, some now⟩
  | 0, s => by simp [runAttempts, recordSuccess]
  | k + 1, s => by
    rw [List.replicate_succ, List.cons_append]
    show runAttempts now (recordFailure s) (List.replicate k false ++ [true]) = _
    rw [runAttempts_fail_then_success now k (recordFailure s)]
    simp [recordFailure, ScheduleStats.mk.injEq]
    omega

theorem runAttempts_all_fail (now : Int) :
    ∀ (k : Nat) (s : ScheduleStats),
      runAttempts now s (List.replicate k false) =
        { s with failed_posts := s.failed_posts + k }
  | 0, s => by simp [runAttempts]
  | k + 1, s => by
    rw [List.replicate_succ]
    show runAttempts now (recordFailure s) (List.replicate k false) = _
    rw [runAttempts_all_fail now k (recordFailure s)]
    simp [recordFailure]
    omega

/-- C1 amended: a successful run increments total-runs and successful-runs
by exactly 1 and stamps last-run-time, leaving failed-runs unchanged;
*every* failed attempt — including one that will still be retried —
increments failed-runs by exactly 1 and leaves total-runs,
successful-runs and last-run-time unchanged.  Over a full job (`k ≤ 3`
retried failures then a success, or all attempts failing) the counters
add up accordingly. -/
theorem C1_stats_amended (s : ScheduleStats) (now : Int) (k : Nat)
    (hk : k ≤ 3) :
    (recordSuccess s now).total_posts_generated = s.total_posts_generated + 1
    ∧ (recordSuccess s now).successful_posts = s.successful_posts + 1
    ∧ (recordSuccess s now).last_run_at = some now
    ∧ (recordSuccess s now).failed_posts = s.failed_posts
    ∧ (recordFailure s).failed_posts = s.failed_posts + 1
    ∧ (recordFailure s).total_posts_generated = s.total_posts_generated
    ∧ (recordFailure s).successful_posts = s.successful_posts
    ∧ (recordFailure s).last_run_at = s.last_run_at
    ∧ runAttempts now s (List.replicate k false ++ [true]) =
        ⟨s.total_posts_generated + 1, s.successful_posts + 1,
         s.failed_posts + k, some now⟩
    ∧ runAttempts now s (List.replicate (k + 1) false) =
        { s with failed_posts := s.failed_posts + (k + 1) } := by
  refine ⟨rfl, rfl, rfl, rfl, rfl, rfl, rfl, rfl, ?_, ?_⟩
  · exact runAttempts_fail_then_success now k s
  · exact runAttempts_all_fail now (k + 1) s

/-- Witness for C1 amended, two failures then a success from zeroed
counters. -/
theorem C1_stats_amended_witness :
    runAttempts 5 ⟨0, 0, 0, none⟩ (List.replicate 2 false ++ [true]) =
      ⟨0 + 1, 0 + 1, 0 + 2, some 5⟩ :=
  (C1_stats_amended ⟨0, 0, 0, none⟩ 5 2 (by decide)).2.2.2.2.2.2.2.2.1

theorem publishPost_idem (now flush1 flush2 : Int) (p : PostRec) :
    publishPost now flush2 (publishPost now flush1 p) =
      publishPost now flush1 p := by
  by_cases h : dueForPublish now p = true
  · have h2 : dueForPublish now
        { p with status := "published".data, published_at := some now,
                 updated_at := flush1 } = false := by
      simp [dueForPublish]
    simp [publishPost, h, h2]
  · simp [publishPost, h]

/-- C5: the Publish Timer transitions a Post to published iff its status
is `scheduled` and its scheduled-time is ≤ `now`; a Post already
published is never selected again, and running a tick twice equals
running it once (whatever commit times the two ticks flush at). -/
theorem C5_publish_once (now flush1 flush2 : Int) (posts : List PostRec)
    (p : PostRec) :
    publish_scheduled_posts now flush2 (publish_scheduled_posts now flush1 posts) =
      publish_scheduled_posts now flush1 posts
    ∧ ((publishPost now flush1 p).status = "published".data ↔
        (p.status = "published".data ∨ dueForPublish now p = true))
    ∧ (dueForPublish now p = false → publishPost now flush1 p = p)
    ∧ (dueForPublish now p = true →
        ∀ now2 : Int, dueForPublish now2 (publishPost now flush1 p) = false) := by
  refine ⟨?_, ?_, ?_, ?_⟩
  · simp only [publish_scheduled_posts, List.map_map]
    apply List.map_congr_left
    intro q _
    exact publishPost_idem now flush1 flush2 q
  · by_cases h : dueForPublish now p = true <;> simp [publishPost, h]
  · intro h; simp [publishPost, h]
  · intro h now2
    simp only [publishPost, h, if_true]
    simp [dueForPublish]

/-- Witness for C5: a due scheduled post is published, a second tick
changes nothing, and an undue draft is untouched. -/
theorem C5_publish_once_witness :
    ((publishPost 100 101 ⟨1, 1, [], none, [], none, none, [], none, 0,
        "scheduled".data, some 50, none, 10⟩).status = "published".data)
    ∧ publishPost 100 101 ⟨2, 1, [], none, [], none, none, [], none, 0,
        "draft".data, some 50, none, 10⟩ =
      ⟨2, 1, [], none, [], none, none, [], none, 0, "draft".data, some 50,
       none, 10⟩ :=
  ⟨((C5_publish_once 100 101 102 [] ⟨1, 1, [], none, [], none, none, [], none, 0,
      "scheduled".data, some 50, none, 10⟩).2.1).mpr (Or.inr (by decide)),
   (C5_publish_once 100 101 102 [] ⟨2, 1, [], none, [], none, none, [], none, 0,
      "draft".data, some 50, none, 10⟩).2.2.1 (by decide)⟩

/-- C9 counterexample: the tick does not leave every non-status,
non-published-time field of a selected post unchanged — the ORM's
`onupdate=datetime.utcnow` default rewrites `updated_at` when the commit
flushes the status change.  A due post with `updated_at = 10`, published
at `now = 100` with the commit flushing at 101, comes back with
`updated_at = 101 ≠ 10`. -/
theorem C9_counterexample :
    dueForPublish 100 ⟨7, 3, "T".data, some "t".data, "body".data, none, none,
        [], some 1, 9, "scheduled".data, some 50, none, 10⟩ = true
    ∧ (publishPost 100 101 ⟨7, 3, "T".data, some "t".data, "body".data, none,
        none, [], some 1, 9, "scheduled".data, some 50, none, 10⟩).updated_at
        = 101
    ∧ (publishPost 100 101 ⟨7, 3, "T".data, some "t".data, "body".data, none,
        none, [], some 1, 9, "scheduled".data, some 50, none, 10⟩).updated_at
        ≠ (10 : Int) := by
  decide

/-- C9 amended: a Publish Timer tick touches only the status,
published-time and ORM-maintained updated-time columns of the selected
posts; posts failing the selection predicate are returned unchanged
(`updated_at` included, since no UPDATE is emitted for them), no post is
created or dropped, and every post published in one tick gets the
identical published-time — the single `now` captured at the start of the
tick — while `updated_at` is stamped at commit time. -/
theorem C9_publish_frame (now flushTime : Int) (posts : List PostRec)
    (p : PostRec) :
    (publish_scheduled_posts now flushTime posts).length = posts.length
    ∧ (publishPost now flushTime p).id = p.id
    ∧ (publishPost now flushTime p).agent_id = p.agent_id
    ∧ (publishPost now flushTime p).title = p.title
    ∧ (publishPost now flushTime p).slug = p.slug
    ∧ (publishPost now flushTime p).content = p.content
    ∧ (publishPost now flushTime p).meta_title = p.meta_title
    ∧ (publishPost now flushTime p).meta_description = p.meta_description
    ∧ (publishPost now flushTime p).keywords = p.keywords
    ∧ (publishPost now flushTime p).word_count = p.word_count
    ∧ (publishPost now flushTime p).tokens_used = p.tokens_used
    ∧ (publishPost now flushTime p).scheduled_at = p.scheduled_at
    ∧ (dueForPublish now p = false → publishPost now flushTime p = p)
    ∧ (dueForPublish now p = true →
        (publishPost now flushTime p).status = "published".data ∧
        (publishPost now flushTime p).published_at = some now ∧
        (publishPost now flushTime p).updated_at = flushTime)
    ∧ (∀ q ∈ posts, ∀ r ∈ posts,
        dueForPublish now q = true → dueForPublish now r = true →
        (publishPost now flushTime q).published_at =
          (publishPost now flushTime r).published_at) := by
  have hsame : ∀ q ∈ posts, ∀ r ∈ posts,
      dueForPublish now q = true → dueForPublish now r = true →
      (publishPost now flushTime q).published_at =
        (publishPost now flushTime r).published_at := by
    intro q _ r _ hq hr
    simp [publishPost, hq, hr]
  refine ⟨by simp [publish_scheduled_posts], ?_, ?_, ?_, ?_, ?_, ?_, ?_, ?_, ?_,
    ?_, ?_, ?_, ?_, hsame⟩ <;>
    (by_cases h : dueForPublish now p = true <;> simp [publishPost, h])

/-- Witness for C9: the non-status fields of a due post survive a tick,
its published-time is the tick's `now` and its updated-time the commit
time. -/
theorem C9_publish_frame_witness :
    (publishPost 100 101 ⟨7, 3, "T".data, some "t".data, "body".data, none, none,
        [], some 1, 9, "scheduled".data, some 50, none, 10⟩).title = "T".data
    ∧ (publishPost 100 101 ⟨7, 3, "T".data, some "t".data, "body".data, none,
        none, [], some 1, 9, "scheduled".data, some 50, none,
        10⟩).published_at = some 100
    ∧ (publishPost 100 101 ⟨7, 3, "T".data, some "t".data, "body".data, none,
        none, [], some 1, 9, "scheduled".data, some 50, none,
        10⟩).updated_at = 101 :=
  ⟨(C9_publish_frame 100 101 [] ⟨7, 3, "T".data, some "t".data, "body".data,
      none, none, [], some 1, 9, "scheduled".data, some 50, none, 10⟩).2.2.2.1,
   ((C9_publish_frame 100 101 [] ⟨7, 3, "T".data, some "t".data, "body".data,
      none, none, [], some 1, 9, "scheduled".data, some 50, none,
      10⟩).2.2.2.2.2.2.2.2.2.2.2.2.2.1 (by decide)).2.1,
   ((C9_publish_frame 100 101 [] ⟨7, 3, "T".data, some "t".data, "body".data,
      none, none, [], some 1, 9, "scheduled".data, some 50, none,
      10⟩).2.2.2.2.2.2.2.2.2.2.2.2.2.1 (by decide)).2.2⟩

theorem head?_take_pos {α : Type} (l : List α) (n : Nat) (hn : 0 < n) :
    (l.take n).head? = l.head? := by
  cases l <;> cases n <;> simp_all

/-- C6: whatever text the Completion Service returns for the meta-title
and meta-description steps, a successful pipeline run's meta title is
trimmed to at most 70 characters and its meta description to at most 160
characters (both with no leading whitespace). -/
theorem C6_meta_truncation (jsonLoads : JsonLoads)
    (contentReply metaTitleReply metaDescReply keywordsReply : CallResult)
    (r : GenResult)
    (h : generate_post jsonLoads contentReply metaTitleReply metaDescReply
        keywordsReply = .ok r) :
    r.meta_title.length ≤ 70 ∧ r.meta_description.length ≤ 160
    ∧ (∀ c, r.meta_title.head? = some c → pyWhitespace c = false)
    ∧ (∀ c, r.meta_description.head? = some c → pyWhitespace c = false) := by
  simp only [generate_post] at h
  rcases contentReply with e | ⟨content, tc⟩
  · exact absurd h (by simp)
  simp only at h
  split at h
  · exact absurd h (by simp)
  rcases metaTitleReply with e | ⟨mt, tt⟩
  · exact absurd h (by simp)
  rcases metaDescReply with e | ⟨md, td⟩
  · exact absurd h (by simp)
  rcases keywordsReply with e | ⟨kw, tk⟩
  · exact absurd h (by simp)
  simp only [Except.ok.injEq] at h
  subst h
  refine ⟨?_, ?_, ?_, ?_⟩
  · simp [List.length_take]
  · simp [List.length_take]
  · intro c hc
    rw [show (GenResult.meta_title _) = (pyStrip mt).take 70 from rfl,
      head?_take_pos _ 70 (by norm_num)] at hc
    exact head_pyStrip mt c hc
  · intro c hc
    rw [show (GenResult.meta_description _) = (pyStrip md).take 160 from rfl,
      head?_take_pos _ 160 (by norm_num)] at hc
    exact head_pyStrip md c hc

/-- Witness for C6: a concrete pipeline run with over-short replies. -/
theorem C6_meta_truncation_witness :
    (GenResult.meta_title
        ⟨"Hello world post".data, "Hello world post".data, "My Title".data,
         "Desc here".data, [], 6, 3⟩).length ≤ 70
    ∧ (GenResult.meta_description
        ⟨"Hello world post".data, "Hello world post".data, "My Title".data,
         "Desc here".data, [], 6, 3⟩).length ≤ 160 :=
  ⟨(C6_meta_truncation (fun _ => .error []) (.ok ("Hello world post".data, 3))
      (.ok ("  My Title  ".data, 1)) (.ok (" Desc here ".data, 1))
      (.ok ("nope".data, 1)) _ rfl).1,
   (C6_meta_truncation (fun _ => .error []) (.ok ("Hello world post".data, 3))
      (.ok ("  My Title  ".data, 1)) (.ok (" Desc here ".data, 1))
      (.ok ("nope".data, 1)) _ rfl).2.1⟩

/-- C7: when the other pipeline steps succeed, a keyword reply whose
`json.loads` outcome is a parse error or a non-list value never fails the
pipeline: the run still succeeds and the keyword list is empty. -/
theorem C7_keyword_recovery (jsonLoads : JsonLoads)
    (content mt md kw : List Char) (tc tt td tk : Nat)
    (hcontent : content ≠ [])
    (hparse : (∃ e, jsonLoads (pyStrip kw) = .error e) ∨
      (∃ j, jsonLoads (pyStrip kw) = .ok j ∧ ∀ items, j ≠ Json.arr items)) :
    ∃ r, generate_post jsonLoads (.ok (content, tc)) (.ok (mt, tt))
        (.ok (md, td)) (.ok (kw, tk)) = .ok r ∧ r.keywords = [] := by
  have hce : content.isEmpty = false := by
    cases content
    · exact absurd rfl hcontent
    · rfl
  refine ⟨{ title := extract_title content, content := content,
            meta_title := (pyStrip mt).take 70,
            meta_description := (pyStrip md).take 160,
            keywords := parseKeywordsResponse (jsonLoads (pyStrip kw)),
            tokens_used := tc + tt + td + tk,
            word_count := pyWordCount content }, ?_, ?_⟩
  · simp [generate_post, hce]
  · show parseKeywordsResponse (jsonLoads (pyStrip kw)) = []
    rcases hparse with ⟨e, he⟩ | ⟨j, hj, hne⟩
    · rw [he]
      rfl
    · rw [hj]
      cases j with
      | arr items => exact absurd rfl (hne items)
      | null => rfl
      | bool b => rfl
      | num n => rfl
      | str s => rfl
      | obj fields => rfl

/-- Witness for C7: a keyword reply parsing to a non-list JSON value. -/
theorem C7_keyword_recovery_witness :
    ∃ r, generate_post (fun _ => .ok (Json.num 3))
        (.ok ("some content".data, 1)) (.ok ("t".data, 1)) (.ok ("d".data, 1))
        (.ok ("nope".data, 1)) = .ok r ∧ r.keywords = [] :=
  C7_keyword_recovery (fun _ => .ok (Json.num 3)) "some content".data "t".data
    "d".data "nope".data 1 1 1 1 (by decide)
    (Or.inr ⟨Json.num 3, rfl, fun items h => Json.noConfusion h⟩)

/-- C4: title extraction follows the strict priority order — first `<h1>`
capture (stripped), else first `<h2>` capture (stripped), else the first
Markdown `# `/`## ` heading line with the marker stripped, else the first
text line (HTML tags stripped) longer than 10 characters truncated to
100, else the fixed placeholder `"Untitled Post"` — each rule tried only
when every previous rule found no match. -/
theorem C4_title_priority (c : List Char) :
    (∀ t, searchTag ['h', '1'] c = some t → extract_title c = pyStrip t)
    ∧ (searchTag ['h', '1'] c = none →
        ∀ t, searchTag ['h', '2'] c = some t → extract_title c = pyStrip t)
    ∧ (searchTag ['h', '1'] c = none → searchTag ['h', '2'] c = none →
        ∀ t, (splitNL (pyStrip c)).findSome? mdTitle = some t →
          extract_title c = t)
    ∧ (searchTag ['h', '1'] c = none → searchTag ['h', '2'] c = none →
        (splitNL (pyStrip c)).findSome? mdTitle = none →
        ∀ t, (splitNL (pyStrip c)).findSome? textLineTitle = some t →
          extract_title c = t)
    ∧ (searchTag ['h', '1'] c = none → searchTag ['h', '2'] c = none →
        (splitNL (pyStrip c)).findSome? mdTitle = none →
        (splitNL (pyStrip c)).findSome? textLineTitle = none →
        extract_title c = "Untitled Post".data) := by
  refine ⟨?_, ?_, ?_, ?_, ?_⟩ <;> intros <;> simp [extract_title, *]

set_option maxRecDepth 100000 in
/-- Witness for C4, the spec's four examples: `<h1>` beats a Markdown
`##` heading; a lone `##` heading is used; with neither, a long text line
is truncated to 100 characters; empty content gives the placeholder. -/
theorem C4_title_priority_witness :
    extract_title "x<h1>Foo</h1>\n## Bar".data = "Foo".data
    ∧ extract_title "## Bar".data = "Bar".data
    ∧ extract_title (List.replicate 120 'a') = List.replicate 100 'a'
    ∧ extract_title [] = "Untitled Post".data := by
  refine ⟨?_, ?_, ?_, ?_⟩
  · exact ((C4_title_priority _).1 "Foo".data (by rfl)).trans (by rfl)
  · exact (C4_title_priority _).2.2.1 (by rfl) (by rfl) "Bar".data (by rfl)
  · exact (C4_title_priority _).2.2.2.1 (by rfl) (by rfl) (by rfl)
      (List.replicate 100 'a') (by rfl)
  · exact (C4_title_priority _).2.2.2.2 (by rfl) (by rfl) (by rfl) (by rfl)

/-- C10: for every title, the generated slug consists only of lowercase
ASCII letters, digits and hyphens, has no leading or trailing hyphen, and
is at most 100 characters long (it may be empty when the title has no
alphanumeric characters). -/
theorem C10_slug_shape (title : List Char) :
    (∀ c ∈ generate_slug title, slugChar c = true ∨ c = '-')
    ∧ (generate_slug title).head? ≠ some '-'
    ∧ (generate_slug title).getLast? ≠ some '-'
    ∧ (generate_slug title).length ≤ 100 := by
  set s := stripChar '-' (hyphenate (lowerAll (asciiFilter title))) with hs
  have hmem_s : ∀ c ∈ s, slugChar c = true ∨ c = '-' := fun c hc =>
    hyphenate_mem _ c ((stripChar_isInfix '-' _).sublist.subset hc)
  have hchain_s : List.Chain' NoDD s :=
    List.Chain'.infix (hyphenate_chain _) (stripChar_isInfix '-' _)
  have hhead_s : s.head? ≠ some '-' := head_stripChar '-' _
  have hlast_s : s.getLast? ≠ some '-' := getLast_stripChar '-' _
  have hgen : generate_slug title = truncateSlug s := rfl
  rw [hgen]
  unfold truncateSlug
  by_cases hlen : 100 < s.length
  · rw [if_pos hlen]
    set t := s.take 100 with ht
    have htpre : t <+: s := List.take_prefix 100 s
    have htlen : t.length = 100 := by
      rw [ht, List.length_take]
      omega
    by_cases hcont : t.contains '-'
    · rw [if_pos hcont]
      have hdmem : '-' ∈ t.reverse := by
        rw [List.mem_reverse]
        exact List.elem_iff.mp hcont
      have hune : t.reverse.dropWhile (· ≠ '-') ≠ [] := by
        rw [Ne, List.dropWhile_eq_nil_iff]
        intro hall
        have := hall '-' hdmem
        simp at this
      obtain ⟨hd, tl, hu2⟩ := List.exists_cons_of_ne_nil hune
      have hhd : hd = '-' := by
        have := head_dropWhile (· ≠ '-') t.reverse hd (by rw [hu2]; rfl)
        simpa using this
      subst hhd
      have h1 : t.reverse.takeWhile (· ≠ '-') ++ ('-' :: tl) = t.reverse := by
        rw [← hu2]
        exact List.takeWhile_append_dropWhile (· ≠ '-') _
      have h2 := congrArg List.reverse h1
      rw [List.reverse_reverse] at h2
      have hdecomp :
          t = tl.reverse ++ '-' :: (t.reverse.takeWhile (· ≠ '-')).reverse := by
        conv_lhs => rw [← h2]
        rw [List.reverse_append, List.reverse_cons, List.append_assoc,
          List.singleton_append]
      have hres : ((t.reverse.dropWhile (· ≠ '-')).drop 1).reverse = tl.reverse := by
        rw [hu2]
        rfl
      rw [hres]
      have hrpre : tl.reverse <+: t :=
        ⟨'-' :: (t.reverse.takeWhile (· ≠ '-')).reverse, hdecomp.symm⟩
      have hchain_t : List.Chain' NoDD t := List.Chain'.prefix hchain_s htpre
      refine ⟨?_, ?_, ?_, ?_⟩
      · intro c hc
        exact hmem_s c (htpre.sublist.subset (hrpre.sublist.subset hc))
      · intro hrh
        have hth : t.head? = some '-' := by
          rw [hdecomp, List.head?_append, hrh]
          rfl
        rw [ht, head?_take_pos s 100 (by norm_num)] at hth
        exact hhead_s hth
      · intro hlast
        have hsplit := List.chain'_append.mp (hdecomp ▸ hchain_t)
        exact hsplit.2.2 '-' hlast '-' rfl ⟨rfl, rfl⟩
      · have := hrpre.length_le
        omega
    · rw [if_neg hcont]
      have hnd : ∀ c ∈ t, c ≠ '-' := by
        intro c hc hceq
        subst hceq
        exact hcont (List.elem_iff.mpr hc)
      refine ⟨fun c hc => hmem_s c (htpre.sublist.subset hc), ?_, ?_, by omega⟩
      · rw [ht, head?_take_pos s 100 (by norm_num)]
        exact hhead_s
      · intro h
        exact hnd '-' (List.mem_of_getLast?_eq_some h) rfl
  · rw [if_neg hlen]
    exact ⟨hmem_s, hhead_s, hlast_s, by omega⟩

/-- Witness for C10 at a concrete title. -/
theorem C10_slug_shape_witness :
    (slugChar 'h' = true ∨ 'h' = '-')
    ∧ (generate_slug "Hello, World!".data).length ≤ 100 :=
  ⟨(C10_slug_shape "Hello, World!".data).1 'h' (by decide),
   (C10_slug_shape "Hello, World!".data).2.2.2⟩

end Claims
